import Mathlib

/-!
Verification of the Xpert_Panel repository: data model and operations of the
proxy-configuration aggregation service and its dashboard panel.

The frontend panel (XpertPanel, WhitelistManager, Router) is embedded from the
TypeScript source. The backend AggregationEngine, WhitelistFilter and the
merge/rank/commit pipeline are not part of the shipped sources (only their
HTTP callers and the deployment Dockerfile are), so those definitions are
modelled from the specification and marked as such. The Dockerfile fixes
MAX_PING_MS = 300 and MAX_CONFIGS = 100.
-/

namespace Xpert

/-- Config record as in the panel's `Config` interface (XpertPanel source):
id, protocol, server, port, remarks, measured ping, measured packet loss,
active flag. Measurements are modelled as naturals. -/
structure Config where
  id : Nat
  protocol : String
  server : String
  port : Nat
  remarks : String
  ping_ms : Nat
  packet_loss : Nat
  is_active : Bool
deriving DecidableEq, Repr

/-- Subscription source as in the panel's `Source` interface (identity,
display name, URL, enabled flag, priority; derived display fields omitted). -/
structure Source where
  id : Nat
  name : String
  url : String
  enabled : Bool
  priority : Nat
deriving DecidableEq, Repr

/-- Host entry of a whitelist, as in the panel's `Host` interface. -/
structure Host where
  host : String
  description : String
  country : String
  is_active : Bool
  added_at : String
deriving DecidableEq, Repr

/-- Whitelist as in the panel's `Whitelist` interface, together with its
owned host entries. -/
structure Whitelist where
  id : String
  name : String
  description : String
  is_active : Bool
  hosts : List Host
deriving DecidableEq, Repr

/-- Latency ceiling for activation, fixed by the deployment Dockerfile
(`ENV MAX_PING_MS=300`). -/
def MAX_PING_MS : Nat := 300

/-- Active-set budget, fixed by the deployment Dockerfile
(`ENV MAX_CONFIGS=100`). -/
def MAX_CONFIGS : Nat := 100

/-- The whitelists that are active system-wide. -/
def activeWhitelists (ws : List Whitelist) : List Whitelist :=
  ws.filter (fun w => w.is_active)

/-- Whether a whitelist contains the given host as an active Host entry. -/
def whitelistAllowsHost (w : Whitelist) (h : String) : Bool :=
  w.hosts.any (fun e => e.is_active && decide (e.host = h))

/-- Modelled from the spec: `WhitelistFilter.isAllowed` of the backend engine
(absent from the shipped sources). If no whitelist is active system-wide, all
hosts are allowed (fail-open); otherwise a host is allowed iff it appears as
an active Host entry in at least one active whitelist (OR semantics). -/
def isAllowed (ws : List Whitelist) (h : String) : Bool :=
  if (activeWhitelists ws).isEmpty then true
  else (activeWhitelists ws).any (fun w => whitelistAllowsHost w h)

lemma isAllowed_iff (ws : List Whitelist) (h : String) :
    isAllowed ws h = true ↔
      (activeWhitelists ws = [] ∨
        ∃ w ∈ ws, w.is_active = true ∧ ∃ e ∈ w.hosts, e.is_active = true ∧ e.host = h) := by
  unfold isAllowed
  by_cases hembed : activeWhitelists ws = []
  · simp [hembed]
  · rw [if_neg (by simpa [List.isEmpty_iff] using hembed)]
    simp only [List.any_eq_true, activeWhitelists, List.mem_filter,
      whitelistAllowsHost, Bool.and_eq_true, decide_eq_true_eq]
    constructor
    · rintro ⟨w, ⟨hw, hact⟩, e, he, hea, heh⟩
      exact Or.inr ⟨w, hw, hact, e, he, hea, heh⟩
    · rintro (hc | ⟨w, hw, hact, e, he, hea, heh⟩)
      · exact absurd hc hembed
      · exact ⟨w, ⟨hw, hact⟩, e, he, hea, heh⟩

/-- Modelled from the spec: a normalized proxy-config descriptor produced by
the backend ConfigParser (absent from the shipped sources): protocol tag,
server host, port, free-text remarks, owning source id. -/
structure ConfigDescriptor where
  protocol : String
  server : String
  port : Nat
  remarks : String
  source_id : Nat
deriving DecidableEq, Repr

/-- The natural key of a descriptor: `(protocol, server, port)`. -/
def descKey (d : ConfigDescriptor) : String × String × Nat :=
  (d.protocol, d.server, d.port)

/-- Modelled from the spec: one step of the backend merge (absent from the
shipped sources) — a descriptor is appended unless an already-kept descriptor
has the same natural key (first-writer-wins). -/
def dedupInsert (acc : List ConfigDescriptor) (d : ConfigDescriptor) :
    List ConfigDescriptor :=
  if acc.any (fun a => decide (descKey a = descKey d)) then acc else acc ++ [d]

/-- Modelled from the spec: deduplicate a descriptor stream by natural key,
keeping the first occurrence of each key. -/
def dedupByKey (l : List ConfigDescriptor) : List ConfigDescriptor :=
  l.foldl dedupInsert []

/-- Modelled from the spec: result of fetching and parsing one source —
`none` when the fetch or parse failed, otherwise the parsed descriptors. -/
def FetchResult : Type := Option (List ConfigDescriptor)

/-- Source processing order of the backend engine: lower priority value
first, ties broken by id. -/
def srcLE (a b : Source × FetchResult) : Bool :=
  decide (a.1.priority < b.1.priority) ||
    (decide (a.1.priority = b.1.priority) && decide (a.1.id ≤ b.1.id))

/-- Modelled from the spec: step 2 of the backend cycle for one source —
an enabled source contributes its successfully fetched descriptors filtered
by the whitelist policy; a disabled or failed source contributes nothing. -/
def sourceSurviving (ws : List Whitelist) (p : Source × FetchResult) :
    List ConfigDescriptor :=
  if p.1.enabled then
    ((p.2 : Option (List ConfigDescriptor)).getD []).filter (fun d => isAllowed ws d.server)
  else []

/-- Modelled from the spec: the stream of descriptors the backend engine
merges — enabled sources in priority order (ties by id), each contributing
its surviving descriptors. -/
def prioritizedDescriptors (ws : List Whitelist) (srcs : List (Source × FetchResult)) :
    List ConfigDescriptor :=
  ((srcs.mergeSort srcLE).map (sourceSurviving ws)).flatten

/-- Modelled from the spec: step 3 of the backend cycle — merge all sources'
surviving descriptors, deduplicating by `(protocol, server, port)` with
first-seen-wins by source priority order. -/
def mergeDescriptors (ws : List Whitelist) (srcs : List (Source × FetchResult)) :
    List ConfigDescriptor :=
  dedupByKey (prioritizedDescriptors ws srcs)

/-- Modelled from the spec: a ProbeWorker measurement for one descriptor. -/
structure ProbeResult where
  reachable : Bool
  ping_ms : Nat
  packet_loss : Nat
deriving DecidableEq, Repr

/-- A config candidate after probing: store id, descriptor fields and the
probe measurements. -/
structure ProbedConfig where
  id : Nat
  protocol : String
  server : String
  port : Nat
  remarks : String
  reachable : Bool
  ping_ms : Nat
  packet_loss : Nat
deriving DecidableEq, Repr

/-- Build a probed candidate from a store id, a descriptor and its probe. -/
def mkProbed (i : Nat) (d : ConfigDescriptor) (r : ProbeResult) : ProbedConfig :=
  ⟨i, d.protocol, d.server, d.port, d.remarks, r.reachable, r.ping_ms, r.packet_loss⟩

/-- Modelled from the spec: step 4 of the backend cycle — submit the
deduplicated set to the probe pool. Probing is represented by a function from
descriptors to results; store ids are assigned by position. -/
def probeAll (probe : ConfigDescriptor → ProbeResult) (l : List ConfigDescriptor) :
    List ProbedConfig :=
  l.enum.map (fun p => mkProbed p.1 p.2 (probe p.2))

/-- Modelled from the spec: the activation thresholds — reachable, packet
loss below the configured ceiling, ping within the latency ceiling. (The
whitelist filter was already applied before probing, in step 2.) -/
def isCandidate (maxPing lossCeil : Nat) (c : ProbedConfig) : Bool :=
  c.reachable && decide (c.packet_loss < lossCeil) && decide (c.ping_ms ≤ maxPing)

/-- The candidates of a probed batch: the configs meeting the activation
thresholds. -/
def candidatesOf (maxPing lossCeil : Nat) (l : List ProbedConfig) :
    List ProbedConfig :=
  l.filter (isCandidate maxPing lossCeil)

/-- The ranking sort key: ping ascending, then packet loss, then config id. -/
def sortKey (c : ProbedConfig) : Nat × Nat × Nat :=
  (c.ping_ms, c.packet_loss, c.id)

/-- Lexicographic comparison of sort keys. -/
def lexLE (a b : Nat × Nat × Nat) : Bool :=
  decide (a.1 < b.1) ||
    (decide (a.1 = b.1) &&
      (decide (a.2.1 < b.2.1) || (decide (a.2.1 = b.2.1) && decide (a.2.2 ≤ b.2.2))))

/-- Modelled from the spec: step 5 of the backend cycle — sort the candidates
by the ranking key. -/
def rankedKeys (maxPing lossCeil : Nat) (l : List ProbedConfig) :
    List (Nat × Nat × Nat) :=
  ((candidatesOf maxPing lossCeil l).map sortKey).mergeSort lexLE

/-- Modelled from the spec: ids of the new active set — the top
`maxConfigs` ranked candidates. -/
def activeIds (maxPing lossCeil maxConfigs : Nat) (l : List ProbedConfig) :
    List Nat :=
  ((rankedKeys maxPing lossCeil l).take maxConfigs).map (fun k => k.2.2)

/-- Turn a probed candidate into a committed Config with the given active
flag. -/
def toConfig (c : ProbedConfig) (act : Bool) : Config :=
  ⟨c.id, c.protocol, c.server, c.port, c.remarks, c.ping_ms, c.packet_loss, act⟩

/-- Modelled from the spec: step 6 of the backend cycle — commit every probed
config (active and inactive) with fresh measurements; a config is active iff
its id is in the ranked top `maxConfigs`. -/
def commitCycle (maxPing lossCeil maxConfigs : Nat) (l : List ProbedConfig) :
    List Config :=
  l.map (fun c => toConfig c ((activeIds maxPing lossCeil maxConfigs l).contains c.id))

/-- Natural key of a committed config. -/
def configKey (c : Config) : String × String × Nat :=
  (c.protocol, c.server, c.port)

/-- Modelled from the spec: one full fetch→parse→filter→probe→rank→commit
pass of the backend AggregationEngine (absent from the shipped sources), as a
function of the whitelists, the thresholds, the probe outcomes and the
per-source fetch results. -/
def fullCycle (ws : List Whitelist) (maxPing lossCeil maxConfigs : Nat)
    (probe : ConfigDescriptor → ProbeResult)
    (srcs : List (Source × FetchResult)) : List Config :=
  commitCycle maxPing lossCeil maxConfigs (probeAll probe (mergeDescriptors ws srcs))

/-- Whether the Store collaborator is reachable. -/
inductive StoreStatus where
  | reachable
  | unreachable
deriving DecidableEq, Repr

/-- Store failure surfaced by the update endpoint. -/
inductive StoreError where
  | unavailable
deriving DecidableEq, Repr

/-- Result object of the update endpoint, as read by the panel's
`handleUpdate` (`result.active_configs`, `result.total_configs`). -/
structure UpdateResult where
  active_configs : Nat
  total_configs : Nat
deriving DecidableEq, Repr

/-- Modelled from the spec: the backend POST /xpert/update handler (absent
from the shipped sources). It runs one cycle and reports
`{active_configs, total_configs}` regardless of per-source failures; it fails
hard only when the Store itself is unreachable. -/
def updateOperation (store : StoreStatus) (ws : List Whitelist)
    (maxPing lossCeil maxConfigs : Nat) (probe : ConfigDescriptor → ProbeResult)
    (srcs : List (Source × FetchResult)) : Except StoreError UpdateResult :=
  match store with
  | .unreachable => .error .unavailable
  | .reachable =>
      let committed := fullCycle ws maxPing lossCeil maxConfigs probe srcs
      .ok ⟨committed.countP (fun c => c.is_active), committed.length⟩

/-- An HTTP request as constructed by the panel: URL, method, and whether an
`Authorization: Bearer` header is attached. -/
structure HttpRequest where
  url : String
  method : String
  hasBearerAuth : Bool
deriving DecidableEq, Repr

/-- The three requests issued by `fetchData` in XpertPanel: sources, stats
and configs, each with a bearer Authorization header. -/
def fetchDataRequests : List HttpRequest :=
  [⟨"/api/xpert/sources", "GET", true⟩,
   ⟨"/api/xpert/stats", "GET", true⟩,
   ⟨"/api/xpert/configs", "GET", true⟩]

/-- All requests constructed in XpertPanel: `fetchData`, `handleAddSource`,
`handleDeleteSource`, `handleToggleSource`, `handleUpdate` (each attaching a
bearer Authorization header in the source). -/
def xpertPanelRequests (sid : Nat) : List HttpRequest :=
  fetchDataRequests ++
  [⟨"/api/xpert/sources", "POST", true⟩,
   ⟨"/api/xpert/sources/" ++ toString sid, "DELETE", true⟩,
   ⟨"/api/xpert/sources/" ++ toString sid ++ "/toggle", "POST", true⟩,
   ⟨"/api/xpert/update", "POST", true⟩]

/-- All requests constructed in WhitelistManager: `loadData`,
`loadWhitelistHosts`, `handleAddWhitelist`, `handleAddHost`,
`handleDeleteWhitelist`, `handleDeleteHost`. -/
def whitelistManagerRequests (wid h : String) : List HttpRequest :=
  [⟨"/api/xpert/whitelists", "GET", true⟩,
   ⟨"/api/xpert/whitelists/" ++ wid ++ "/hosts", "GET", true⟩,
   ⟨"/api/xpert/whitelists", "POST", true⟩,
   ⟨"/api/xpert/whitelists/" ++ wid ++ "/hosts", "POST", true⟩,
   ⟨"/api/xpert/whitelists/" ++ wid, "DELETE", true⟩,
   ⟨"/api/xpert/whitelists/" ++ wid ++ "/hosts/" ++ h, "DELETE", true⟩]

/-- The request constructed in Router's `fetchAdminLoader`. -/
def routerRequests : List HttpRequest :=
  [⟨"/admin", "GET", true⟩]

/-- Every request the panel code constructs, over all its call sites. -/
def allPanelRequests (sid : Nat) (wid h : String) : List HttpRequest :=
  xpertPanelRequests sid ++ whitelistManagerRequests wid h ++ routerRequests

/-- Whether a URL targets the /xpert API namespace (the panel's base API
path is "/api/"). -/
def isXpertUrl (u : String) : Bool :=
  "/api/xpert".data.isPrefixOf u.data

/-- Key of a probed candidate. -/
def probedKey (c : ProbedConfig) : String × String × Nat :=
  (c.protocol, c.server, c.port)

/-- The active configs of a fetched config list, as computed by
`configs.filter(c => c.is_active)` in XpertPanel. -/
def activeConfigsList (configs : List Config) : List Config :=
  configs.filter (fun c => c.is_active)

/-- The rows rendered by the Active Configurations table:
`configs.filter(c => c.is_active).slice(0, 20)`. -/
def renderedActiveRows (configs : List Config) : List Config :=
  (activeConfigsList configs).take 20

/-- Whether the overflow note is rendered:
`configs.filter(c => c.is_active).length > 20`. -/
def overflowNoteShown (configs : List Config) : Bool :=
  decide (20 < (activeConfigsList configs).length)

/-- The count N displayed in the overflow note
(`Showing 20 of N active configs`). -/
def overflowNoteCount (configs : List Config) : Nat :=
  (activeConfigsList configs).length

/-- The add-source form state `newSource` of XpertPanel. -/
structure NewSourceForm where
  name : String
  url : String
  priority : Nat
deriving DecidableEq, Repr

/-- The create-whitelist form state `newWhitelist` of WhitelistManager. -/
structure WhitelistCreateForm where
  name : String
  description : String
deriving DecidableEq, Repr

/-- The add-host form state `newHost` of WhitelistManager. -/
structure HostCreateForm where
  host : String
  description : String
  country : String
deriving DecidableEq, Repr

/-- Observable outcome of a panel action handler: whether a warning toast was
shown, the HTTP requests issued, and the resulting form state. -/
structure PanelAction (σ : Type) where
  warned : Bool
  requests : List HttpRequest
  form : σ
deriving Repr

/-- `handleAddSource` of XpertPanel: with an empty name or url it shows a
warning and returns; otherwise it POSTs the source, resets the form and
reloads via `fetchData`. -/
def handleAddSource (f : NewSourceForm) : PanelAction NewSourceForm :=
  if f.name = "" ∨ f.url = "" then
    ⟨true, [], f⟩
  else
    ⟨false, ⟨"/api/xpert/sources", "POST", true⟩ :: fetchDataRequests, ⟨"", "", 1⟩⟩

/-- `handleAddWhitelist` of WhitelistManager: with an empty name it shows a
warning and returns; otherwise it POSTs the whitelist, resets the form and
reloads via `loadData`. -/
def handleAddWhitelist (f : WhitelistCreateForm) : PanelAction WhitelistCreateForm :=
  if f.name = "" then
    ⟨true, [], f⟩
  else
    ⟨false, [⟨"/api/xpert/whitelists", "POST", true⟩, ⟨"/api/xpert/whitelists", "GET", true⟩],
      ⟨"", ""⟩⟩

/-- `handleAddHost` of WhitelistManager: with an empty host or no selected
whitelist it shows a warning and returns; otherwise it POSTs the host to the
selected whitelist, resets the form and reloads hosts and whitelists. -/
def handleAddHost (f : HostCreateForm) (selected : Option String) :
    PanelAction HostCreateForm :=
  if f.host = "" ∨ selected = none then
    ⟨true, [], f⟩
  else
    let wid := selected.getD ""
    ⟨false,
      [⟨"/api/xpert/whitelists/" ++ wid ++ "/hosts", "POST", true⟩,
       ⟨"/api/xpert/whitelists/" ++ wid ++ "/hosts", "GET", true⟩,
       ⟨"/api/xpert/whitelists", "GET", true⟩],
      ⟨"", "", ""⟩⟩

end Xpert

namespace Xpert

/-- C6: when zero whitelists are active system-wide, `isAllowed` returns true
for every host; when at least one whitelist is active, `isAllowed h` returns
true iff `h` appears as an active Host entry in at least one active whitelist
(OR semantics across whitelists). -/
theorem c6_whitelist_fail_open_and_or_semantics (ws : List Whitelist) (h : String) :
    (activeWhitelists ws = [] → isAllowed ws h = true) ∧
    (activeWhitelists ws ≠ [] →
      (isAllowed ws h = true ↔
        ∃ w ∈ ws, w.is_active = true ∧ ∃ e ∈ w.hosts, e.is_active = true ∧ e.host = h)) := by
  constructor
  · intro hnone
    exact (isAllowed_iff ws h).2 (Or.inl hnone)
  · intro hsome
    rw [isAllowed_iff ws h]
    constructor
    · rintro (hc | hc)
      · exact absurd hc hsome
      · exact hc
    · exact Or.inr

/-- Concrete instantiation of the C6 theorem: the empty whitelist system
allows any host, and a one-whitelist system allows exactly its listed host. -/
theorem c6_whitelist_fail_open_witness :
    isAllowed [] "example.com" = true ∧
    isAllowed [⟨"w1", "n", "", true, [⟨"1.2.3.4", "", "", true, ""⟩]⟩] "1.2.3.4" = true := by
  refine ⟨(c6_whitelist_fail_open_and_or_semantics [] "example.com").1 (by decide), ?_⟩
  exact ((c6_whitelist_fail_open_and_or_semantics
      [⟨"w1", "n", "", true, [⟨"1.2.3.4", "", "", true, ""⟩]⟩] "1.2.3.4").2
      (by decide)).2
    ⟨⟨"w1", "n", "", true, [⟨"1.2.3.4", "", "", true, ""⟩]⟩, by decide, rfl,
      ⟨"1.2.3.4", "", "", true, ""⟩, by decide, rfl, rfl⟩

/-- C1: for every invocation of the update operation, including invocations
where some sources fail to fetch or parse (fetch result `none`), the
operation returns a result object with `active_configs` and `total_configs`;
it returns a hard error exactly when the Store itself is unreachable. -/
theorem c1_update_always_returns_counts (store : StoreStatus) (ws : List Whitelist)
    (maxPing lossCeil maxConfigs : Nat) (probe : ConfigDescriptor → ProbeResult)
    (srcs : List (Source × FetchResult)) :
    ((∃ r : UpdateResult, updateOperation store ws maxPing lossCeil maxConfigs probe srcs =
        Except.ok r) ↔ store = StoreStatus.reachable) ∧
    (store = StoreStatus.unreachable →
      updateOperation store ws maxPing lossCeil maxConfigs probe srcs =
        Except.error StoreError.unavailable) := by
  cases store with
  | reachable =>
      refine ⟨⟨fun _ => rfl, fun _ => ⟨_, rfl⟩⟩, fun h => by cases h⟩
  | unreachable =>
      refine ⟨⟨fun hex => ?_, fun h => by cases h⟩, fun _ => rfl⟩
      obtain ⟨r, hr⟩ := hex
      cases hr

/-- Concrete instantiation of the C1 theorem: with an unreachable Store the
update reports the hard error; with a reachable Store and a failing source it
still returns a result object. -/
theorem c1_update_always_returns_counts_witness :
    updateOperation StoreStatus.unreachable [] 300 100 100 (fun _ => ⟨false, 0, 100⟩)
        [(⟨1, "a", "u", true, 1⟩, (none : Option (List ConfigDescriptor)))] =
      Except.error StoreError.unavailable ∧
    (∃ r : UpdateResult, updateOperation StoreStatus.reachable [] 300 100 100
        (fun _ => ⟨false, 0, 100⟩)
        [(⟨1, "a", "u", true, 1⟩, (none : Option (List ConfigDescriptor)))] =
      Except.ok r) := by
  constructor
  · exact (c1_update_always_returns_counts StoreStatus.unreachable [] 300 100 100
      (fun _ => ⟨false, 0, 100⟩) [(⟨1, "a", "u", true, 1⟩, none)]).2 rfl
  · exact (c1_update_always_returns_counts StoreStatus.reachable [] 300 100 100
      (fun _ => ⟨false, 0, 100⟩) [(⟨1, "a", "u", true, 1⟩, none)]).1.2 rfl

/-- C8: every request the panel constructs against a /xpert endpoint carries
an `Authorization: Bearer` credential. -/
theorem c8_all_xpert_requests_carry_bearer (sid : Nat) (wid h : String)
    (r : HttpRequest) (hr : r ∈ allPanelRequests sid wid h)
    (hurl : isXpertUrl r.url = true) : r.hasBearerAuth = true := by
  simp only [allPanelRequests, xpertPanelRequests, fetchDataRequests,
    whitelistManagerRequests, routerRequests, List.append_assoc, List.cons_append,
    List.nil_append, List.mem_cons, List.not_mem_nil, or_false] at hr
  rcases hr with rfl | rfl | rfl | rfl | rfl | rfl | rfl | rfl | rfl | rfl | rfl | rfl | rfl | rfl
  all_goals rfl

/-- Concrete instantiation of the C8 theorem at the sources-listing request. -/
theorem c8_all_xpert_requests_carry_bearer_witness :
    HttpRequest.hasBearerAuth ⟨"/api/xpert/sources", "GET", true⟩ = true :=
  c8_all_xpert_requests_carry_bearer 1 "w1" "1.2.3.4" ⟨"/api/xpert/sources", "GET", true⟩
    (by simp [allPanelRequests, xpertPanelRequests, fetchDataRequests]) (by decide)

/-- C9: the Active Configurations table renders only configs with
`is_active = true`, renders at most the first 20 of them (a prefix of the
active list), and the overflow note is shown iff the number of active configs
exceeds 20, displaying exactly that number. -/
theorem c9_active_table_renders_top20 (configs : List Config) :
    (∀ c ∈ renderedActiveRows configs, c.is_active = true) ∧
    (renderedActiveRows configs).length = min 20 (activeConfigsList configs).length ∧
    (renderedActiveRows configs).isPrefixOf (activeConfigsList configs) = true ∧
    (overflowNoteShown configs = true ↔ 20 < overflowNoteCount configs) ∧
    overflowNoteCount configs = (configs.filter (fun c => c.is_active)).length := by
  refine ⟨?_, ?_, ?_, ?_, rfl⟩
  · intro c hc
    exact (List.mem_filter.1 (List.mem_of_mem_take hc)).2
  · exact List.length_take 20 (activeConfigsList configs)
  · exact List.isPrefixOf_iff_prefix.2 (List.take_prefix 20 (activeConfigsList configs))
  · simp [overflowNoteShown, overflowNoteCount]

/-- Concrete instantiation of the C9 theorem at a two-config list with one
active config. -/
theorem c9_active_table_renders_top20_witness :
    Config.is_active ⟨1, "vless", "h1", 443, "r", 10, 0, true⟩ = true ∧
    (renderedActiveRows [⟨1, "vless", "h1", 443, "r", 10, 0, true⟩,
        ⟨2, "trojan", "h2", 443, "r", 500, 3, false⟩]).length =
      min 20 (activeConfigsList [⟨1, "vless", "h1", 443, "r", 10, 0, true⟩,
        ⟨2, "trojan", "h2", 443, "r", 500, 3, false⟩]).length := by
  constructor
  · exact (c9_active_table_renders_top20 [⟨1, "vless", "h1", 443, "r", 10, 0, true⟩,
      ⟨2, "trojan", "h2", 443, "r", 500, 3, false⟩]).1
      ⟨1, "vless", "h1", 443, "r", 10, 0, true⟩ (by decide)
  · exact (c9_active_table_renders_top20 [⟨1, "vless", "h1", 443, "r", 10, 0, true⟩,
      ⟨2, "trojan", "h2", 443, "r", 500, 3, false⟩]).2.1

/-- C10: each add handler validates its required fields before any network
effect — with an empty name or url (`handleAddSource`), an empty name
(`handleAddWhitelist`), or an empty host or no selected whitelist
(`handleAddHost`), the handler shows a warning, issues no HTTP request and
leaves the form state unchanged. -/
theorem c10_add_handlers_validate_before_network (f₁ : NewSourceForm)
    (f₂ : WhitelistCreateForm) (f₃ : HostCreateForm) (sel : Option String) :
    (f₁.name = "" ∨ f₁.url = "" →
      handleAddSource f₁ = ⟨true, [], f₁⟩) ∧
    (f₂.name = "" →
      handleAddWhitelist f₂ = ⟨true, [], f₂⟩) ∧
    (f₃.host = "" ∨ sel = none →
      handleAddHost f₃ sel = ⟨true, [], f₃⟩) := by
  refine ⟨fun h => ?_, fun h => ?_, fun h => ?_⟩
  · unfold handleAddSource; exact if_pos h
  · unfold handleAddWhitelist; exact if_pos h
  · unfold handleAddHost; exact if_pos h

lemma find?_foldl_dedupInsert (k : String × String × Nat) :
    ∀ (l acc : List ConfigDescriptor),
      (l.foldl dedupInsert acc).find? (fun d => decide (descKey d = k)) =
        ((acc.find? (fun d => decide (descKey d = k))).or
          (l.find? (fun d => decide (descKey d = k)))) := by
  intro l
  induction l with
  | nil => intro acc; simp
  | cons d l' ih =>
      intro acc
      rw [List.foldl_cons, ih]
      by_cases hany : acc.any (fun a => decide (descKey a = descKey d)) = true
      · rw [dedupInsert, if_pos hany]
        by_cases hdk : descKey d = k
        · have hsome : (acc.find? (fun a => decide (descKey a = k))).isSome := by
            rw [List.find?_isSome]
            obtain ⟨a, ha, hak⟩ := List.any_eq_true.1 hany
            exact ⟨a, ha, decide_eq_true ((of_decide_eq_true hak).trans hdk)⟩
          obtain ⟨x, hx⟩ := Option.isSome_iff_exists.1 hsome
          rw [hx, Option.or_some, Option.or_some]
        · rw [List.find?_cons_of_neg _ (by simpa using hdk)]
      · rw [dedupInsert, if_neg hany, List.find?_append, Option.or_assoc]
        congr 1
        by_cases hdk : descKey d = k
        · rw [List.find?_cons_of_pos _ (by simpa using hdk),
            List.find?_cons_of_pos _ (by simpa using hdk), Option.or_some]
        · rw [List.find?_cons_of_neg _ (by simpa using hdk),
            List.find?_cons_of_neg _ (by simpa using hdk), List.find?_nil, Option.none_or]

lemma dedupByKey_find? (l : List ConfigDescriptor) (k : String × String × Nat) :
    (dedupByKey l).find? (fun d => decide (descKey d = k)) =
      l.find? (fun d => decide (descKey d = k)) := by
  unfold dedupByKey
  rw [find?_foldl_dedupInsert]
  simp

lemma keys_nodup_foldl :
    ∀ (l acc : List ConfigDescriptor), ((acc.map descKey).Nodup) →
      (((l.foldl dedupInsert acc).map descKey).Nodup) := by
  intro l
  induction l with
  | nil => intro acc h; simpa using h
  | cons d l' ih =>
      intro acc h
      rw [List.foldl_cons]
      apply ih
      by_cases hany : acc.any (fun a => decide (descKey a = descKey d)) = true
      · rw [dedupInsert, if_pos hany]; exact h
      · rw [dedupInsert, if_neg hany, List.map_append]
        rw [List.nodup_append]
        refine ⟨h, List.nodup_singleton _, ?_⟩
        intro x hx hx1
        simp only [List.map_cons, List.map_nil, List.mem_singleton] at hx1
        obtain ⟨a, ha, hak⟩ := List.mem_map.1 hx
        exact hany (List.any_eq_true.2 ⟨a, ha, decide_eq_true (by rw [hak, hx1])⟩)

lemma dedupByKey_keys_nodup (l : List ConfigDescriptor) :
    ((dedupByKey l).map descKey).Nodup :=
  keys_nodup_foldl l [] (by simp)

lemma find?_eq_self_of_keys_nodup :
    ∀ (m : List ConfigDescriptor), ((m.map descKey).Nodup) →
      ∀ d ∈ m, m.find? (fun a => decide (descKey a = descKey d)) = some d := by
  intro m
  induction m with
  | nil => intro _ d hd; cases hd
  | cons a m' ih =>
      intro hnd d hd
      rw [List.map_cons, List.nodup_cons] at hnd
      rcases List.mem_cons.1 hd with rfl | hd'
      · exact List.find?_cons_of_pos _ (by simp)
      · have hne : ¬(descKey a = descKey d) := by
          intro he
          exact hnd.1 (he ▸ List.mem_map.2 ⟨d, hd', rfl⟩)
        rw [List.find?_cons_of_neg _ (by simpa using hne)]
        exact ih hnd.2 d hd'

/-- C5: when several sources yield descriptors with the same
`(protocol, server, port)` key in one cycle, the merge keeps exactly the
descriptor occurring first in the priority-ordered stream of descriptors
(lower priority value first, ties by id), so its remarks and metadata come
from the highest-priority source: looking any key up in the merged set gives
the same descriptor as looking it up in the priority-ordered stream, and
every surviving descriptor is the first of its key in that stream. -/
theorem c5_merge_first_seen_wins_by_priority (ws : List Whitelist)
    (srcs : List (Source × FetchResult)) (k : String × String × Nat) :
    (mergeDescriptors ws srcs).find? (fun d => decide (descKey d = k)) =
      (prioritizedDescriptors ws srcs).find? (fun d => decide (descKey d = k)) ∧
    (∀ d ∈ mergeDescriptors ws srcs,
      (prioritizedDescriptors ws srcs).find? (fun a => decide (descKey a = descKey d)) =
        some d) := by
  constructor
  · exact dedupByKey_find? _ k
  · intro d hd
    rw [← dedupByKey_find?]
    exact find?_eq_self_of_keys_nodup _ (dedupByKey_keys_nodup _) d hd

unseal List.merge List.mergeSort in
/-- Concrete instantiation of the C5 theorem at the spec's example: source A
(priority 1) and source B (priority 2) both expose `vless://host1:443`; after
the merge the surviving descriptor's remarks come from A. -/
theorem c5_merge_first_seen_wins_by_priority_witness :
    (mergeDescriptors []
        [(⟨2, "B", "uB", true, 2⟩, some [⟨"vless", "host1", 443, "from B", 2⟩]),
         (⟨1, "A", "uA", true, 1⟩, some [⟨"vless", "host1", 443, "from A", 1⟩])]).find?
      (fun d => decide (descKey d = ("vless", "host1", 443))) =
      some ⟨"vless", "host1", 443, "from A", 1⟩ ∧
    (prioritizedDescriptors []
        [(⟨2, "B", "uB", true, 2⟩, some [⟨"vless", "host1", 443, "from B", 2⟩]),
         (⟨1, "A", "uA", true, 1⟩, some [⟨"vless", "host1", 443, "from A", 1⟩])]).find?
      (fun a => decide (descKey a =
        descKey (⟨"vless", "host1", 443, "from A", 1⟩ : ConfigDescriptor))) =
      some ⟨"vless", "host1", 443, "from A", 1⟩ := by
  constructor
  · rw [(c5_merge_first_seen_wins_by_priority []
      [(⟨2, "B", "uB", true, 2⟩, some [⟨"vless", "host1", 443, "from B", 2⟩]),
       (⟨1, "A", "uA", true, 1⟩, some [⟨"vless", "host1", 443, "from A", 1⟩])]
      ("vless", "host1", 443)).1]
    decide
  · exact (c5_merge_first_seen_wins_by_priority []
      [(⟨2, "B", "uB", true, 2⟩, some [⟨"vless", "host1", 443, "from B", 2⟩]),
       (⟨1, "A", "uA", true, 1⟩, some [⟨"vless", "host1", 443, "from A", 1⟩])]
      ("vless", "host1", 443)).2 ⟨"vless", "host1", 443, "from A", 1⟩ (by decide)

lemma commit_map_key (mp lc mc : Nat) (l : List ProbedConfig) :
    (commitCycle mp lc mc l).map configKey = l.map probedKey := by
  unfold commitCycle
  rw [List.map_map]
  rfl

lemma probeAll_map_key (probe : ConfigDescriptor → ProbeResult)
    (l : List ConfigDescriptor) :
    (probeAll probe l).map probedKey = l.map descKey := by
  unfold probeAll
  rw [List.map_map]
  have h1 : (probedKey ∘ fun p : Nat × ConfigDescriptor => mkProbed p.1 p.2 (probe p.2)) =
      (descKey ∘ Prod.snd) := rfl
  rw [h1, ← List.map_map]
  unfold List.enum
  rw [List.enumFrom_map_snd]

/-- C4: after every cycle's commit, each natural key
`(protocol, server, port)` appears at most once in the whole committed config
set, across all sources. -/
theorem c4_committed_keys_unique (ws : List Whitelist)
    (maxPing lossCeil maxConfigs : Nat) (probe : ConfigDescriptor → ProbeResult)
    (srcs : List (Source × FetchResult)) :
    ((fullCycle ws maxPing lossCeil maxConfigs probe srcs).map configKey).Nodup := by
  unfold fullCycle
  rw [commit_map_key, probeAll_map_key]
  exact dedupByKey_keys_nodup _

lemma countP_contains_of_nodup :
    ∀ (L : List Nat), L.Nodup → ∀ (ids : List Nat), ids.Nodup →
      (∀ i ∈ ids, i ∈ L) → L.countP (fun i => ids.contains i) = ids.length := by
  intro L
  induction L with
  | nil =>
      intro _ ids _ hsub
      cases ids with
      | nil => rfl
      | cons a t => exact absurd (hsub a (List.mem_cons_self a t)) (List.not_mem_nil a)
  | cons a L' ih =>
      intro hL ids hids hsub
      rw [List.nodup_cons] at hL
      rw [List.countP_cons]
      by_cases ha : a ∈ ids
      · have hpa : ids.contains a = true := by simpa using ha
        rw [if_pos hpa]
        have hcong : L'.countP (fun i => ids.contains i) =
            L'.countP (fun i => (ids.erase a).contains i) := by
          apply List.countP_congr
          intro x hx
          have hxa : x ≠ a := fun he => hL.1 (he ▸ hx)
          simp [List.mem_erase_of_ne hxa]
        rw [hcong, ih hL.2 (ids.erase a) (hids.erase a) ?_]
        · exact List.length_erase_add_one ha
        · intro i hi
          obtain ⟨hia, himem⟩ := hids.mem_erase_iff.1 hi
          rcases List.mem_cons.1 (hsub i himem) with rfl | hm
          · exact absurd rfl hia
          · exact hm
      · have hpa : ids.contains a = false := by
          simpa using ha
        rw [hpa]
        simp only [Bool.false_eq_true, if_false, Nat.add_zero]
        refine ih hL.2 ids hids (fun i hi => ?_)
        rcases List.mem_cons.1 (hsub i hi) with rfl | hm
        · exact absurd hi ha
        · exact hm

lemma activeIds_length (mp lc mc : Nat) (l : List ProbedConfig) :
    (activeIds mp lc mc l).length = min mc (candidatesOf mp lc l).length := by
  unfold activeIds
  rw [List.length_map, List.length_take]
  congr 1
  unfold rankedKeys
  rw [(List.mergeSort_perm _ _).length_eq, List.length_map]

lemma candidates_ids_nodup (mp lc : Nat) (l : List ProbedConfig)
    (hid : (l.map (fun c => c.id)).Nodup) :
    ((candidatesOf mp lc l).map (fun c => c.id)).Nodup :=
  List.Nodup.sublist ((List.filter_sublist l).map _) hid

lemma activeIds_nodup (mp lc mc : Nat) (l : List ProbedConfig)
    (hid : (l.map (fun c => c.id)).Nodup) : (activeIds mp lc mc l).Nodup := by
  have hperm : List.Perm (rankedKeys mp lc l) ((candidatesOf mp lc l).map sortKey) :=
    List.mergeSort_perm _ _
  have hthird : ((candidatesOf mp lc l).map sortKey).map (fun k => k.2.2) =
      (candidatesOf mp lc l).map (fun c => c.id) := by
    rw [List.map_map]; rfl
  have hranked : ((rankedKeys mp lc l).map (fun k => k.2.2)).Nodup := by
    rw [(hperm.map (fun k => k.2.2)).nodup_iff, hthird]
    exact candidates_ids_nodup mp lc l hid
  unfold activeIds
  rw [List.map_take]
  exact List.Nodup.sublist (List.take_sublist _ _) hranked

lemma activeIds_subset (mp lc mc : Nat) (l : List ProbedConfig) :
    ∀ i ∈ activeIds mp lc mc l, i ∈ l.map (fun c => c.id) := by
  intro i hi
  unfold activeIds at hi
  obtain ⟨k, hk, hki⟩ := List.mem_map.1 hi
  have hk' : k ∈ rankedKeys mp lc l := List.mem_of_mem_take hk
  have hk'' : k ∈ (candidatesOf mp lc l).map sortKey :=
    (List.mergeSort_perm _ _).mem_iff.1 hk'
  obtain ⟨c, hc, hck⟩ := List.mem_map.1 hk''
  refine List.mem_map.2 ⟨c, List.mem_of_mem_filter hc, ?_⟩
  rw [← hki, ← hck]
  rfl

lemma commit_countP_active (mp lc mc : Nat) (l : List ProbedConfig)
    (hid : (l.map (fun c => c.id)).Nodup) :
    (commitCycle mp lc mc l).countP (fun c => c.is_active) =
      min mc (candidatesOf mp lc l).length := by
  unfold commitCycle
  rw [List.countP_map]
  have h1 : ((fun c : Config => c.is_active) ∘ fun c : ProbedConfig =>
      toConfig c ((activeIds mp lc mc l).contains c.id)) =
      ((fun i : Nat => (activeIds mp lc mc l).contains i) ∘ (fun c : ProbedConfig => c.id)) :=
    rfl
  rw [h1, ← List.countP_map]
  rw [countP_contains_of_nodup _ hid _ (activeIds_nodup mp lc mc l hid)
    (activeIds_subset mp lc mc l)]
  exact activeIds_length mp lc mc l

lemma probeAll_ids_nodup (probe : ConfigDescriptor → ProbeResult)
    (L : List ConfigDescriptor) :
    ((probeAll probe L).map (fun c => c.id)).Nodup := by
  unfold probeAll
  rw [List.map_map]
  have h1 : ((fun c : ProbedConfig => c.id) ∘ fun p : Nat × ConfigDescriptor =>
      mkProbed p.1 p.2 (probe p.2)) = Prod.fst := rfl
  rw [h1]
  unfold List.enum
  rw [List.enumFrom_map_fst]
  exact List.nodup_range' ..

/-- C2: after every completed cycle (fixed thresholds of the deployment:
`MAX_PING_MS`, `MAX_CONFIGS`), the number of committed configs with
`is_active = true` never exceeds `MAX_CONFIGS` and is exactly the minimum of
`MAX_CONFIGS` and the number of candidates meeting the activation thresholds
(reachable, packet loss below the ceiling, ping at most `MAX_PING_MS`). -/
theorem c2_active_count_is_min_budget (ws : List Whitelist) (lossCeil : Nat)
    (probe : ConfigDescriptor → ProbeResult) (srcs : List (Source × FetchResult)) :
    (fullCycle ws MAX_PING_MS lossCeil MAX_CONFIGS probe srcs).countP
        (fun c => c.is_active) =
      min MAX_CONFIGS
        (candidatesOf MAX_PING_MS lossCeil
          (probeAll probe (mergeDescriptors ws srcs))).length ∧
    (fullCycle ws MAX_PING_MS lossCeil MAX_CONFIGS probe srcs).countP
        (fun c => c.is_active) ≤ MAX_CONFIGS := by
  have h := commit_countP_active MAX_PING_MS lossCeil MAX_CONFIGS
    (probeAll probe (mergeDescriptors ws srcs)) (probeAll_ids_nodup probe _)
  refine ⟨h, ?_⟩
  rw [show (fullCycle ws MAX_PING_MS lossCeil MAX_CONFIGS probe srcs).countP
      (fun c => c.is_active) =
      (commitCycle MAX_PING_MS lossCeil MAX_CONFIGS
        (probeAll probe (mergeDescriptors ws srcs))).countP (fun c => c.is_active) from rfl,
    h]
  exact Nat.min_le_left _ _

lemma mem_foldl_dedupInsert :
    ∀ (l acc : List ConfigDescriptor) (x : ConfigDescriptor),
      x ∈ l.foldl dedupInsert acc → x ∈ acc ∨ x ∈ l := by
  intro l
  induction l with
  | nil => intro acc x hx; exact Or.inl hx
  | cons d l' ih =>
      intro acc x hx
      rw [List.foldl_cons] at hx
      rcases ih (dedupInsert acc d) x hx with hacc | hl'
      · unfold dedupInsert at hacc
        split at hacc
        · exact Or.inl hacc
        · rcases List.mem_append.1 hacc with h | h
          · exact Or.inl h
          · rw [List.mem_singleton] at h
            exact Or.inr (h ▸ List.mem_cons_self d l')
      · exact Or.inr (List.mem_cons_of_mem d hl')

lemma dedupByKey_subset (l : List ConfigDescriptor) :
    ∀ x ∈ dedupByKey l, x ∈ l := by
  intro x hx
  rcases mem_foldl_dedupInsert l [] x hx with h | h
  · cases h
  · exact h

lemma prioritized_allowed (ws : List Whitelist) (srcs : List (Source × FetchResult)) :
    ∀ d ∈ prioritizedDescriptors ws srcs, isAllowed ws d.server = true := by
  intro d hd
  unfold prioritizedDescriptors at hd
  rw [List.mem_flatten] at hd
  obtain ⟨s, hs, hds⟩ := hd
  obtain ⟨p, _, rfl⟩ := List.mem_map.1 hs
  unfold sourceSurviving at hds
  split at hds
  · exact (List.mem_filter.1 hds).2
  · cases hds

lemma probeAll_server (probe : ConfigDescriptor → ProbeResult)
    (L : List ConfigDescriptor) :
    ∀ x ∈ probeAll probe L, ∃ d ∈ L, x.server = d.server := by
  intro x hx
  unfold probeAll at hx
  obtain ⟨p, hp, rfl⟩ := List.mem_map.1 hx
  refine ⟨p.2, ?_, rfl⟩
  have hmem : p.2 ∈ L.enum.map Prod.snd := List.mem_map_of_mem Prod.snd hp
  rw [show L.enum.map Prod.snd = L from List.enumFrom_map_snd 0 L] at hmem
  exact hmem

lemma commit_active_candidate (mp lc mc : Nat) (l : List ProbedConfig)
    (hid : (l.map (fun c => c.id)).Nodup) (c : Config)
    (hc : c ∈ commitCycle mp lc mc l) (hact : c.is_active = true) :
    ∃ c₀ ∈ candidatesOf mp lc l, c = toConfig c₀ true := by
  unfold commitCycle at hc
  obtain ⟨c₀, hc₀, hcc⟩ := List.mem_map.1 hc
  have hb : (activeIds mp lc mc l).contains c₀.id = true := by
    rw [← hcc] at hact
    exact hact
  have hmem : c₀.id ∈ activeIds mp lc mc l := by simpa using hb
  unfold activeIds at hmem
  obtain ⟨k, hk, hki⟩ := List.mem_map.1 hmem
  have hk' : k ∈ rankedKeys mp lc l := List.mem_of_mem_take hk
  have hk'' : k ∈ (candidatesOf mp lc l).map sortKey :=
    (List.mergeSort_perm _ _).mem_iff.1 hk'
  obtain ⟨cand, hcand, hck⟩ := List.mem_map.1 hk''
  have hidq : cand.id = c₀.id := by
    rw [← hki, ← hck]
    rfl
  have hceq : cand = c₀ :=
    List.inj_on_of_nodup_map hid (List.mem_of_mem_filter hcand) hc₀ hidq
  refine ⟨c₀, hceq ▸ hcand, ?_⟩
  rw [← hcc, hb]

/-- C3: for every committed config of a full cycle (fixed `MAX_PING_MS`
latency ceiling), `is_active = true` implies `ping_ms ≤ MAX_PING_MS`,
`packet_loss` below the configured ceiling, and, when at least one active
whitelist exists, the config's host appears as an active Host entry of some
active whitelist. -/
theorem c3_active_implies_thresholds_and_whitelist (ws : List Whitelist)
    (lossCeil : Nat) (probe : ConfigDescriptor → ProbeResult)
    (srcs : List (Source × FetchResult)) (c : Config)
    (hc : c ∈ fullCycle ws MAX_PING_MS lossCeil MAX_CONFIGS probe srcs)
    (hact : c.is_active = true) :
    c.ping_ms ≤ MAX_PING_MS ∧ c.packet_loss < lossCeil ∧
      ((∃ w ∈ ws, w.is_active = true) →
        ∃ w ∈ ws, w.is_active = true ∧
          ∃ e ∈ w.hosts, e.is_active = true ∧ e.host = c.server) := by
  have hid := probeAll_ids_nodup probe (mergeDescriptors ws srcs)
  obtain ⟨c₀, hc₀, rfl⟩ :=
    commit_active_candidate MAX_PING_MS lossCeil MAX_CONFIGS _ hid c hc hact
  have hcand := (List.mem_filter.1 hc₀).2
  have hmem := (List.mem_filter.1 hc₀).1
  unfold isCandidate at hcand
  simp only [Bool.and_eq_true, decide_eq_true_eq] at hcand
  refine ⟨hcand.2, hcand.1.2, ?_⟩
  intro hex
  obtain ⟨d, hd, hsd⟩ := probeAll_server probe _ c₀ hmem
  have hdall : isAllowed ws d.server = true :=
    prioritized_allowed ws srcs d (dedupByKey_subset _ d hd)
  rcases (isAllowed_iff ws d.server).1 hdall with hempty | hfound
  · obtain ⟨w, hw, hwa⟩ := hex
    have : w ∈ activeWhitelists ws := List.mem_filter.2 ⟨hw, hwa⟩
    rw [hempty] at this
    cases this
  · obtain ⟨w, hw, hwa, e, he, hea, heh⟩ := hfound
    exact ⟨w, hw, hwa, e, he, hea, by rw [heh, ← hsd]; rfl⟩

unseal List.merge List.mergeSort in
/-- Concrete instantiation of the C3 theorem: a one-source, one-descriptor
cycle whose probe measures 10 ms and 0 % loss commits the config active, and
the theorem's conclusions hold for it. -/
theorem c3_active_implies_thresholds_and_whitelist_witness :
    (toConfig ⟨0, "vless", "1.2.3.4", 443, "", true, 10, 0⟩ true).ping_ms ≤ MAX_PING_MS ∧
    (toConfig ⟨0, "vless", "1.2.3.4", 443, "", true, 10, 0⟩ true).packet_loss < 100 ∧
      ((∃ w ∈ ([] : List Whitelist), w.is_active = true) →
        ∃ w ∈ ([] : List Whitelist), w.is_active = true ∧
          ∃ e ∈ w.hosts, e.is_active = true ∧
            e.host = (toConfig ⟨0, "vless", "1.2.3.4", 443, "", true, 10, 0⟩ true).server) := by
  have h := c3_active_implies_thresholds_and_whitelist [] 100
    (fun _ => ⟨true, 10, 0⟩)
    [(⟨1, "A", "uA", true, 1⟩, some [⟨"vless", "1.2.3.4", 443, "", 1⟩])]
    (toConfig ⟨0, "vless", "1.2.3.4", 443, "", true, 10, 0⟩ true)
    (by decide) rfl
  exact h

lemma lexLE_trans (a b c : Nat × Nat × Nat)
    (h1 : lexLE a b = true) (h2 : lexLE b c = true) : lexLE a c = true := by
  rcases a with ⟨a1, a2, a3⟩
  rcases b with ⟨b1, b2, b3⟩
  rcases c with ⟨c1, c2, c3⟩
  simp only [lexLE, Bool.or_eq_true, Bool.and_eq_true, decide_eq_true_eq] at h1 h2 ⊢
  omega

lemma lexLE_total (a b : Nat × Nat × Nat) : (lexLE a b || lexLE b a) = true := by
  rcases a with ⟨a1, a2, a3⟩
  rcases b with ⟨b1, b2, b3⟩
  simp only [lexLE, Bool.or_eq_true, Bool.and_eq_true, decide_eq_true_eq]
  omega

lemma lexLE_antisymm (a b : Nat × Nat × Nat)
    (h1 : lexLE a b = true) (h2 : lexLE b a = true) : a = b := by
  rcases a with ⟨a1, a2, a3⟩
  rcases b with ⟨b1, b2, b3⟩
  simp only [lexLE, Bool.or_eq_true, Bool.and_eq_true, decide_eq_true_eq] at h1 h2
  simp only [Prod.mk.injEq]
  refine ⟨?_, ?_, ?_⟩ <;> omega

lemma sorted_rankedKeys (mp lc : Nat) (l : List ProbedConfig) :
    (rankedKeys mp lc l).Pairwise (fun a b => lexLE a b = true) := by
  unfold rankedKeys
  exact List.sorted_mergeSort
    (fun a b c h1 h2 => lexLE_trans a b c h1 h2)
    (fun a b => lexLE_total a b)
    ((candidatesOf mp lc l).map sortKey)

lemma rankedKeys_eq_of_perm (mp lc : Nat) (l₁ l₂ : List ProbedConfig)
    (hp : List.Perm l₁ l₂) : rankedKeys mp lc l₁ = rankedKeys mp lc l₂ := by
  have hcand : List.Perm (candidatesOf mp lc l₁) (candidatesOf mp lc l₂) :=
    hp.filter _
  have hperm : List.Perm (rankedKeys mp lc l₁) (rankedKeys mp lc l₂) :=
    (List.mergeSort_perm _ _).trans
      ((hcand.map sortKey).trans (List.mergeSort_perm _ _).symm)
  haveI : IsAntisymm (Nat × Nat × Nat) (fun a b => lexLE a b = true) :=
    ⟨lexLE_antisymm⟩
  exact List.eq_of_perm_of_sorted hperm (sorted_rankedKeys mp lc l₁)
    (sorted_rankedKeys mp lc l₂)

/-- C7: the ranking is determined solely by the sort key (ping ascending,
then packet loss, then config id), not by probe-arrival order — two cycle
runs over the same probed configs, received in any order, rank identically
and commit identical config sets (same configs with the same active
flags). -/
theorem c7_cycle_order_independent (maxPing lossCeil maxConfigs : Nat)
    (l₁ l₂ : List ProbedConfig) (hp : List.Perm l₁ l₂) :
    rankedKeys maxPing lossCeil l₁ = rankedKeys maxPing lossCeil l₂ ∧
    List.Perm (commitCycle maxPing lossCeil maxConfigs l₁)
      (commitCycle maxPing lossCeil maxConfigs l₂) := by
  have hrk := rankedKeys_eq_of_perm maxPing lossCeil l₁ l₂ hp
  refine ⟨hrk, ?_⟩
  unfold commitCycle
  have hai : activeIds maxPing lossCeil maxConfigs l₁ =
      activeIds maxPing lossCeil maxConfigs l₂ := by
    unfold activeIds
    rw [hrk]
  rw [hai]
  exact hp.map _

/-- Concrete instantiation of the C7 theorem at a two-config batch received
in the two possible orders. -/
theorem c7_cycle_order_independent_witness :
    rankedKeys 300 100 [⟨0, "vless", "h1", 443, "", true, 10, 0⟩,
        ⟨1, "trojan", "h2", 443, "", true, 20, 0⟩] =
      rankedKeys 300 100 [⟨1, "trojan", "h2", 443, "", true, 20, 0⟩,
        ⟨0, "vless", "h1", 443, "", true, 10, 0⟩] ∧
    List.Perm
      (commitCycle 300 100 100 [⟨0, "vless", "h1", 443, "", true, 10, 0⟩,
        ⟨1, "trojan", "h2", 443, "", true, 20, 0⟩])
      (commitCycle 300 100 100 [⟨1, "trojan", "h2", 443, "", true, 20, 0⟩,
        ⟨0, "vless", "h1", 443, "", true, 10, 0⟩]) :=
  c7_cycle_order_independent 300 100 100
    [⟨0, "vless", "h1", 443, "", true, 10, 0⟩, ⟨1, "trojan", "h2", 443, "", true, 20, 0⟩]
    [⟨1, "trojan", "h2", 443, "", true, 20, 0⟩, ⟨0, "vless", "h1", 443, "", true, 10, 0⟩]
    (List.Perm.swap (⟨1, "trojan", "h2", 443, "", true, 20, 0⟩ : ProbedConfig)
      (⟨0, "vless", "h1", 443, "", true, 10, 0⟩ : ProbedConfig) [])

/-- Concrete instantiation of the C10 theorem at empty forms. -/
theorem c10_add_handlers_validate_before_network_witness :
    handleAddSource ⟨"", "https://example.com/sub", 1⟩ =
      ⟨true, [], ⟨"", "https://example.com/sub", 1⟩⟩ ∧
    handleAddWhitelist ⟨"", "d"⟩ = ⟨true, [], ⟨"", "d"⟩⟩ ∧
    handleAddHost ⟨"1.2.3.4", "d", "US"⟩ none = ⟨true, [], ⟨"1.2.3.4", "d", "US"⟩⟩ := by
  refine ⟨?_, ?_, ?_⟩
  · exact (c10_add_handlers_validate_before_network ⟨"", "https://example.com/sub", 1⟩
      ⟨"", "d"⟩ ⟨"1.2.3.4", "d", "US"⟩ none).1 (Or.inl rfl)
  · exact (c10_add_handlers_validate_before_network ⟨"", "https://example.com/sub", 1⟩
      ⟨"", "d"⟩ ⟨"1.2.3.4", "d", "US"⟩ none).2.1 rfl
  · exact (c10_add_handlers_validate_before_network ⟨"", "https://example.com/sub", 1⟩
      ⟨"", "d"⟩ ⟨"1.2.3.4", "d", "US"⟩ none).2.2 (Or.inr rfl)

end Xpert
